import Mathlib

/-!
Verification of the pg-mcp PostgreSQL gateway (src/w5/pg-mcp) against its
natural-language specification.

The development shallowly embeds the parts of the code the claims are about:

* `pg_mcp_server/core/sql_validator.py`   (SQLValidator)
* `pg_mcp_server/core/sql_access_control.py` (SQLAccessControlRewriter)
* `pg_mcp_server/models/security.py`      (DatabaseAccessPolicy)
* `pg_mcp_server/core/sql_executor.py` / `multi_database_executor.py` (row cap)
* `pg_mcp_server/utils/rate_limiter.py`   (RateLimiter)
* `pg_mcp_server/utils/metrics.py`        (MetricsCollector counters)

Parsing is done by the third-party sqlglot library; the embedding therefore
works on the parsed representation (table nodes, column nodes, function nodes,
nested SELECTs) and treats `sqlglot.parse_one` as a function into
`Except String _` to mirror the `try/except` structure of the Python code.
Python floats (timestamps, counter values) are modelled as rationals: the code
only adds, subtracts, and compares them.
-/

namespace PgMcp

/-! ### SQL validator (`core/sql_validator.py`) -/

/-- A function node of the parsed tree, as seen by
`SQLValidator._check_dangerous_functions`.  sqlglot's `exp.Anonymous` nodes
(unregistered functions such as `pg_read_file`) carry the written identifier in
`this`; registered functions expose `sql_name()` and a `name` property.  The
`hasSqlName`/`hasName` flags mirror the `hasattr` tests of the code. -/
structure FuncNode where
  isAnonymous : Bool
  thisName : String
  hasSqlName : Bool
  sqlName : String
  hasName : Bool
  name : String
  deriving Repr, DecidableEq

/-- The dangerous-function denylist of `_check_dangerous_functions`. -/
def dangerousFunctionNames : List String :=
  [ "pg_read_file", "pg_write_file", "pg_execute", "copy",
    "pg_terminate_backend", "pg_cancel_backend", "set_config",
    "current_setting", "pg_reload_conf", "pg_rotate_logfile",
    "pg_ls_dir", "pg_read_binary_file", "pg_stat_file" ]

/-- Name extraction of `_check_dangerous_functions`: anonymous nodes use
`str(node.this).lower()`, otherwise `node.sql_name().lower()` when available,
otherwise `str(node.name).lower()`; if no branch applies the node yields no
name (`func_name` stays `None`). -/
def extractFuncName (f : FuncNode) : Option String :=
  if f.isAnonymous then some f.thisName.toLower
  else if f.hasSqlName then some f.sqlName.toLower
  else if f.hasName then some f.name.toLower
  else none

/-- Embedding of `SQLValidator._check_dangerous_functions`: collect the extracted names that
are members of the denylist. -/
def checkDangerousFunctions (funcs : List FuncNode) : List String :=
  funcs.filterMap fun f =>
    match extractFuncName f with
    | some n => if dangerousFunctionNames.contains n then some n else none
    | none => none

/-- The projection of a successfully parsed statement that
`SQLValidator.validate_sql` inspects: the class name of the root node
(`isinstance(parsed, exp.Select)` checks it is `Select`), the function nodes of
the tree (`parsed.find_all(exp.Func)`), and, for every `exp.Subquery` node, the
class name of its inner statement (`node.this`). -/
structure ValidatorStmt where
  rootKind : String
  funcs : List FuncNode
  subqueryKinds : List String
  deriving Repr, DecidableEq

/-- Embedding of `SQLValidator._check_subqueries`: the first subquery whose inner node is
not a `Select`, if any. -/
def checkSubqueries (stmt : ValidatorStmt) : Option String :=
  stmt.subqueryKinds.find? (fun k => k ≠ "Select")

/-- Embedding of `SQLValidator.validate_sql`.  The input is the outcome of
`sqlglot.parse_one(sql, dialect="postgres")`: `.error` for a raised
`ParseError`, `.ok` for a parsed statement. -/
def validateSql (input : Except String ValidatorStmt) : Bool × Option String :=
  match input with
  | .error e => (false, some ("SQL syntax error: " ++ e))
  | .ok stmt =>
    if stmt.rootKind ≠ "Select" then
      (false, some ("Only SELECT queries are allowed. Detected: " ++ stmt.rootKind))
    else
      let dang := checkDangerousFunctions stmt.funcs
      if dang ≠ [] then
        (false, some ("Dangerous functions detected: " ++ String.intercalate ", " dang))
      else
        match checkSubqueries stmt with
        | some k => (false, some ("Non-SELECT statement in subquery: " ++ k))
        | none => (true, none)

/-- Embedding of `SQLValidator.format_sql`.  `parse` stands for
`sqlglot.parse_one(sql, dialect="postgres")` and `gen` for
`parsed.sql(dialect="postgres", pretty=True)`; both run inside the `try`, and
any failure returns the input unchanged.  The function is total: the embedding
of "never raises". -/
def formatSql (parse : String → Except String α) (gen : α → Except String String)
    (sql : String) : String :=
  match parse sql with
  | .error _ => sql
  | .ok a =>
    match gen a with
    | .error _ => sql
    | .ok out => out

/-! ### Executor row cap (`core/sql_executor.py` and
`core/multi_database_executor.py`, identical logic) -/

/-- The row-cap step of `execute_query`:
`if len(rows) > max_rows: rows = rows[:max_rows]`. -/
def truncateRows (maxRows : Nat) (rows : List α) : List α :=
  if maxRows < rows.length then rows.take maxRows else rows

/-- The slice of `execute_query` the row-boundary claim is about: the
initialization guard (`if not self.pool: raise RuntimeError(...)`) followed by
the row cap applied to the fetched result set.  Connection handling, column
metadata and timing are orthogonal to the returned rows and are not modelled. -/
def executeQueryRows (poolInitialized : Bool) (maxRows : Nat)
    (fetched : List α) : Except String (List α) :=
  if !poolInitialized then .error "Database pool not initialized"
  else .ok (truncateRows maxRows fetched)

/-! ### Access-control policy (`models/security.py`) -/

/-- Embedding of `TableAccessRule` (the fields the rewriter reads; `access_level` and
`comment` are never consulted by `rewrite_and_validate`). -/
structure TableAccessRule where
  schema : String
  table : String
  allowedColumns : Option (List String)
  deniedColumns : Option (List String)
  rowFilter : Option String
  deriving Repr, DecidableEq

/-- Embedding of `DatabaseAccessPolicy` (the fields the rewriter reads). -/
structure DatabaseAccessPolicy where
  databaseName : String
  tableRules : List TableAccessRule
  blockedTables : List String
  deriving Repr, DecidableEq

/-- Embedding of `DatabaseAccessPolicy.get_table_access`: first rule with matching
`(schema, table)`. -/
def getTableAccess (p : DatabaseAccessPolicy) (schema table : String) :
    Option TableAccessRule :=
  p.tableRules.find? (fun r => r.schema == schema && r.table == table)

/-- Embedding of `DatabaseAccessPolicy.is_table_blocked`: the qualified name
`schema.table` or the bare table name is a member of `blocked_tables`. -/
def isTableBlocked (p : DatabaseAccessPolicy) (schema table : String) : Bool :=
  p.blockedTables.contains (schema ++ "." ++ table) || p.blockedTables.contains table

/-- Embedding of `DatabaseAccessPolicy.get_allowed_columns`: `None` when no rule matches,
otherwise the rule's `allowed_columns` (possibly `None`). -/
def getAllowedColumns (p : DatabaseAccessPolicy) (schema table : String) :
    Option (List String) :=
  (getTableAccess p schema table).bind (·.allowedColumns)

/-- Embedding of `DatabaseAccessPolicy.get_denied_columns`: `[]` when no rule matches,
otherwise `rule.denied_columns or []`. -/
def getDeniedColumns (p : DatabaseAccessPolicy) (schema table : String) :
    List String :=
  match getTableAccess p schema table with
  | none => []
  | some r => r.deniedColumns.getD []

/-- Embedding of `DatabaseAccessPolicy.get_row_filter`. -/
def getRowFilter (p : DatabaseAccessPolicy) (schema table : String) :
    Option String :=
  (getTableAccess p schema table).bind (·.rowFilter)

/-! ### Access-control rewriter (`core/sql_access_control.py`) -/

/-- A table reference node (`sqlglot.exp.Table`).  sqlglot splits a dotted
reference into up to three parts: `catalog.db.name`.  A bare reference `t` has
`catalog = "" , db = ""`; a two-part reference `s.t` (PostgreSQL's
`schema.table`) has `catalog = ""` and `db = "s"`; only a three-part reference
`c.s.t` has a non-empty `catalog`.  The string properties return `""` when the
part is absent, as in sqlglot. -/
structure TableRef where
  catalog : String
  db : String
  name : String
  deriving Repr, DecidableEq

/-- The schema resolution of `rewrite_and_validate`:
`schema = table_node.catalog or "public"` (Python `or`: the empty string falls
through to `"public"`). -/
def resolvedSchema (t : TableRef) : String :=
  if t.catalog = "" then "public" else t.catalog

/-- Modelled from the spec: `Enumerate every table reference. For each, treat
missing schema qualifier as public` — under PostgreSQL's reading, the schema
qualifier of a two-part reference `s.t` is `s`, which sqlglot stores in the
`db` part.  This is the spec's intended schema resolution, stated for
comparison with the code's `resolvedSchema`. -/
def specResolvedSchema (t : TableRef) : String :=
  if t.db = "" then "public" else t.db

/-- The table pass of `rewrite_and_validate` (lines 46–53): for every table
reference, resolve the schema, and when the table is blocked append
`f"{schema}.{table}"` to the `blocked_tables` output and continue with the
next reference. -/
def blockedTablesPass (p : DatabaseAccessPolicy) (tables : List TableRef) :
    List String :=
  tables.filterMap fun t =>
    let schema := resolvedSchema t
    if isTableBlocked p schema t.name then some (schema ++ "." ++ t.name)
    else none

/-- Modelled from the spec: the table pass as the claim states it, resolving
the schema qualifier of `s.t` to `s`. -/
def specBlockedTablesPass (p : DatabaseAccessPolicy) (tables : List TableRef) :
    List String :=
  tables.filterMap fun t =>
    let schema := specResolvedSchema t
    if isTableBlocked p schema t.name then some (schema ++ "." ++ t.name)
    else none

/-- A column reference node (`sqlglot.exp.Column`): `table` is the explicit
qualifier (`""` when unqualified), `name` the column name. -/
structure ColRef where
  table : String
  name : String
  deriving Repr, DecidableEq

/-- Embedding of `SQLAccessControlRewriter._get_table_for_column`: the explicit qualifier
when present, otherwise the name of the first table reference of the whole
tree (`for table_node in parsed.find_all(exp.Table): return table_node.name`),
and `None` when the tree has no table at all. -/
def getTableForColumn (tables : List TableRef) (c : ColRef) : Option String :=
  if c.table ≠ "" then some c.table
  else tables.head?.map (·.name)

/-- Split a character list at its first dot: the part before and the part
after (later dots stay in the tail, as with Python's `split(".", 1)`). -/
def splitAtFirstDot : List Char → Option (List Char × List Char)
  | [] => none
  | ch :: rest =>
    if ch = '.' then some ([], rest)
    else (splitAtFirstDot rest).map fun pr => (ch :: pr.1, pr.2)

/-- Embedding of `SQLAccessControlRewriter._split_table_name`: split `schema.table` at the
first dot (`table_name.split(".", 1)`); a dotless name gets schema
`public`. -/
def splitTableName (s : String) : String × String :=
  match splitAtFirstDot s.toList with
  | none => ("public", s)
  | some pr => (String.mk pr.1, String.mk pr.2)

/-- The column pass of `rewrite_and_validate` (lines 61–75): resolve each
column's owning table; a column in `denied_columns` is appended to the
`blocked_columns` output (and the loop continues); otherwise, when a non-empty
`allowed_columns` list is configured (Python truthiness: `if allowed_cols
and ...`) and the column is not in it, it is appended as well. -/
def blockedColumnsPass (p : DatabaseAccessPolicy) (tables : List TableRef)
    (columns : List ColRef) : List String :=
  columns.filterMap fun c =>
    match getTableForColumn tables c with
    | none => none
    | some tn =>
      let st := splitTableName tn
      let schema := st.1
      let table := st.2
      if (getDeniedColumns p schema table).contains c.name then
        some (schema ++ "." ++ table ++ "." ++ c.name)
      else
        match getAllowedColumns p schema table with
        | some allowed =>
          if allowed ≠ [] ∧ ¬ allowed.contains c.name then
            some (schema ++ "." ++ table ++ "." ++ c.name)
          else none
        | none => none

/-- The projection of a parsed statement that the blocking passes of
`rewrite_and_validate` inspect: the table references
(`parsed.find_all(exp.Table)`, in traversal order) and the column references
(`parsed.find_all(exp.Column)`). -/
structure RewriterStmt where
  tables : List TableRef
  columns : List ColRef
  deriving Repr, DecidableEq

/-- Embedding of `SecurityValidationResult` (`models/security.py`). -/
structure SecurityValidationResult where
  isValid : Bool
  errorMessage : Option String
  blockedTables : List String
  blockedColumns : List String
  rewrittenSql : Option String
  deriving Repr, DecidableEq

/-- Embedding of `SQLAccessControlRewriter.rewrite_and_validate`.  The input is the outcome
of `sqlglot.parse_one(sql, dialect="postgres")`; a raised exception is caught
by the `except` branch and returned as an invalid result with *empty* blocked
lists.  `pretty` stands for `parsed.sql(dialect="postgres", pretty=True)`
applied to the (possibly row-filter-rewritten) tree; the row-filter mutation
itself does not change the table or column node lists and is modelled
separately on the nested-SELECT tree (`applyRowFilter`). -/
def rewriteAndValidate (pretty : RewriterStmt → String)
    (p : DatabaseAccessPolicy) (input : Except String RewriterStmt) :
    SecurityValidationResult :=
  match input with
  | .error e =>
    ⟨false, some ("Access control error: " ++ e), [], [], none⟩
  | .ok stmt =>
    let bt := blockedTablesPass p stmt.tables
    let bc := blockedColumnsPass p stmt.tables stmt.columns
    if bt ≠ [] ∨ bc ≠ [] then
      let parts := (if bt ≠ [] then
            ["Blocked tables: " ++ String.intercalate ", " bt] else []) ++
          (if bc ≠ [] then
            ["Blocked columns: " ++ String.intercalate ", " bc] else [])
      ⟨false, some (String.intercalate "; " parts), bt, bc, none⟩
    else
      ⟨true, none, [], [], some (pretty stmt)⟩

/-! ### Row-filter injection (`SQLAccessControlRewriter._apply_row_filter`)

The mutation operates on the parsed tree; what matters to it is the nesting of
SELECT nodes, which table references each SELECT's subtree contains, and each
SELECT's WHERE clause.  Table references are identified by a node id, mirroring
Python's object identity (`tbl is table_node`). -/

/-- A WHERE-clause condition (`sqlglot` expression).  `Cond.and l r` is
`sqlglot.exp.and_(l, r)`; leaves are opaque predicates. -/
inductive Cond where
  | pred (s : String)
  | and (l r : Cond)
  deriving Repr, DecidableEq

mutual
/-- A SELECT node of the parsed tree: the ids of the table references that are
its *direct* FROM items, its subquery SELECTs, and its WHERE clause. -/
inductive SelectTree where
  | mk (tables : List Nat) (subs : SelectForest) (whereC : Option Cond)

/-- The list of subquery SELECTs of a SELECT node. -/
inductive SelectForest where
  | nil
  | cons (head : SelectTree) (tail : SelectForest)
end

/-- Direct table ids of a SELECT node. -/
def SelectTree.tables : SelectTree → List Nat
  | .mk t _ _ => t

/-- Subquery SELECTs of a SELECT node. -/
def SelectTree.subs : SelectTree → SelectForest
  | .mk _ s _ => s

/-- WHERE clause of a SELECT node. -/
def SelectTree.whereC : SelectTree → Option Cond
  | .mk _ _ w => w

/-- The subquery forest as a list. -/
def forestToList : SelectForest → List SelectTree
  | .nil => []
  | .cons s rest => s :: forestToList rest

/-- A list of SELECTs as a forest. -/
def listToForest : List SelectTree → SelectForest
  | [] => .nil
  | s :: rest => .cons s (listToForest rest)

mutual
/-- Embedding of `select_node.find_all(exp.Table)` membership: does the subtree of this
SELECT contain the table reference with the given id? -/
def containsId : SelectTree → Nat → Bool
  | .mk tbls subs _, i => tbls.contains i || forestContainsId subs i

/-- Embedding of `containsId` over a forest of SELECTs. -/
def forestContainsId : SelectForest → Nat → Bool
  | .nil, _ => false
  | .cons s rest, i => containsId s i || forestContainsId rest i
end

/-- Breadth-first enumeration of the SELECT nodes of a tree, each with the
path (child indices) leading to it — the order in which
`parsed.find_all(exp.Select)` yields nodes (sqlglot's `walk` is breadth-first
by default).  `fuel` bounds the number of levels explored; any fuel larger
than the tree depth enumerates every node. -/
def bfsPaths : List (List Nat × SelectTree) → Nat → List (List Nat × SelectTree)
  | _, 0 => []
  | frontier, n + 1 =>
    frontier ++
      bfsPaths
        (frontier.flatMap fun ps =>
          (forestToList ps.2.subs).enum.map fun ic => (ps.1 ++ [ic.1], ic.2)) n

mutual
/-- Nesting depth of a SELECT tree (≥ 1). -/
def treeDepth : SelectTree → Nat
  | .mk _ subs _ => forestDepth subs + 1

/-- Maximal nesting depth over a forest. -/
def forestDepth : SelectForest → Nat
  | .nil => 0
  | .cons s rest => max (treeDepth s) (forestDepth rest)
end

/-- The search loop of `_apply_row_filter` (lines 116–123): the first SELECT,
in `find_all(exp.Select)` order, whose subtree contains the table reference;
returned as its path.  `treeDepth t` levels of fuel enumerate every node. -/
def chosenPath (t : SelectTree) (i : Nat) : Option (List Nat) :=
  ((bfsPaths [([], t)] (treeDepth t)).find? fun ps => containsId ps.2 i).map (·.1)

/-- WHERE-clause update of `_apply_row_filter` (lines 143–150): AND-combine
with an existing WHERE (existing condition first), install otherwise. -/
def mergeWhere (w : Option Cond) (c : Cond) : Option Cond :=
  match w with
  | some e => some (Cond.and e c)
  | none => some c

/-- Replace the WHERE of the SELECT at the given path by its `mergeWhere` with
the filter condition; an out-of-range path leaves the tree unchanged. -/
def mergeWhereAt (t : SelectTree) : List Nat → Cond → SelectTree
  | [], c =>
    match t with
    | .mk tbls subs w => .mk tbls subs (mergeWhere w c)
  | i :: p, c =>
    match t with
    | .mk tbls subs w =>
      match (forestToList subs).get? i with
      | none => .mk tbls subs w
      | some s =>
        .mk tbls (listToForest ((forestToList subs).set i (mergeWhereAt s p c))) w

/-- Embedding of `SQLAccessControlRewriter._apply_row_filter` for an already-parsed filter
condition: install the condition on the SELECT found by the breadth-first
search; when the search finds none, the fallback (lines 125–130) uses the
top-level statement, which in this model is itself a SELECT.  (A filter string
that fails to parse is logged and skipped before this point.) -/
def applyRowFilter (t : SelectTree) (i : Nat) (c : Cond) : SelectTree :=
  match chosenPath t i with
  | some p => mergeWhereAt t p c
  | none => mergeWhereAt t [] c

mutual
/-- Modelled from the spec: `locate the enclosing SELECT (innermost SELECT
that contains this table node), then AND-merge the row-filter expression into
that SELECT's WHERE clause` — recurse into any subquery containing the
reference; a SELECT none of whose subqueries contains it is the innermost
enclosing one and receives the filter. -/
def specApplyInnermost : SelectTree → Nat → Cond → SelectTree
  | .mk tbls subs w, i, c =>
    if forestContainsId subs i then .mk tbls (specApplyForest subs i c) w
    else .mk tbls subs (mergeWhere w c)

/-- Embedding of `specApplyInnermost` mapped over the subqueries that contain the
reference. -/
def specApplyForest : SelectForest → Nat → Cond → SelectForest
  | .nil, _, _ => .nil
  | .cons s rest, i, c =>
    if containsId s i then
      .cons (specApplyInnermost s i c) (specApplyForest rest i c)
    else
      .cons s (specApplyForest rest i c)
end

/-! ### Rate limiter (`utils/rate_limiter.py`)

Timestamps (`time.time()` floats) are modelled as rationals; the code only
subtracts and compares them.  The denial message strings (and their
`retry-after` arithmetic) are not modelled: the claims concern the admission
decision and the per-key record. -/

/-- Embedding of `RateLimitConfig`. -/
structure RateLimitConfig where
  maxRequests : Nat
  timeWindow : Nat
  enabled : Bool
  deriving Repr, DecidableEq

/-- The pruning step of `check_rate_limit` (line 63): keep the timestamps
strictly newer than `current_time - time_window`. -/
def pruneRecord (cfg : RateLimitConfig) (rec : List ℚ) (now : ℚ) : List ℚ :=
  rec.filter fun ts => decide (now - (cfg.timeWindow : ℚ) < ts)

/-- Embedding of `RateLimiter.check_rate_limit` on one key's record: when disabled, allow
without touching the record; otherwise prune, deny when the kept count has
reached `max_requests` (leaving the record pruned), else append `now` and
allow.  Returns `(allowed, record after the call)`. -/
def checkRateLimit (cfg : RateLimitConfig) (rec : List ℚ) (now : ℚ) :
    Bool × List ℚ :=
  if !cfg.enabled then (true, rec)
  else
    let kept := pruneRecord cfg rec now
    if cfg.maxRequests ≤ kept.length then (false, kept)
    else (true, kept ++ [now])

/-- A sequence of probes on one key, starting from its record. -/
def runProbes (cfg : RateLimitConfig) (rec : List ℚ) (probes : List ℚ) :
    List ℚ :=
  probes.foldl (fun r t => (checkRateLimit cfg r t).2) rec

/-- The number of timestamps of a record lying within the closed window
`[now − W, now]` — the window as the claim states it. -/
def inWindowClosed (rec : List ℚ) (W : Nat) (now : ℚ) : Nat :=
  (rec.filter fun ts => decide (now - (W : ℚ) ≤ ts ∧ ts ≤ now)).length

/-- The number of timestamps of a record lying within the half-open window
`(now − W, now]` — the window the code's strict pruning actually enforces. -/
def inWindowOpenLeft (rec : List ℚ) (W : Nat) (now : ℚ) : Nat :=
  (rec.filter fun ts => decide (now - (W : ℚ) < ts ∧ ts ≤ now)).length

/-- The whole limiter state: `self.records`, a dictionary from key to record.
An association list keeps the present/absent distinction of the Python dict. -/
structure RateLimiterState where
  records : List (String × List ℚ)
  deriving Repr, DecidableEq

/-- Dictionary lookup: `self.records.get(key)`. -/
def lookupRecord (st : RateLimiterState) (key : String) : Option (List ℚ) :=
  (st.records.find? (fun kv => kv.1 == key)).map (·.2)

/-- Store a key's record, replacing an existing entry or inserting a new one
(the `defaultdict` access of `check_rate_limit` followed by the assignment to
`record.timestamps`). -/
def setRecord (st : RateLimiterState) (key : String) (rec : List ℚ) :
    RateLimiterState :=
  if (st.records.find? (fun kv => kv.1 == key)).isSome then
    ⟨st.records.map fun kv => if kv.1 == key then (kv.1, rec) else kv⟩
  else
    ⟨st.records ++ [(key, rec)]⟩

/-- Embedding of `RateLimiter.check_rate_limit` on the whole state: the disabled path
returns before touching `self.records`; the enabled path reads the key's
record (`defaultdict`: an empty record when absent) and writes back the
updated one. -/
def checkRateLimitS (cfg : RateLimitConfig) (st : RateLimiterState)
    (key : String) (now : ℚ) : Bool × RateLimiterState :=
  if !cfg.enabled then (true, st)
  else
    let rec0 := (lookupRecord st key).getD []
    let out := checkRateLimit cfg rec0 now
    (out.1, setRecord st key out.2)

/-- Usage statistics returned by `get_current_usage`. -/
structure RateLimitUsage where
  currentRequests : Nat
  maxRequests : Nat
  timeWindow : Nat
  remainingRequests : Nat
  deriving Repr, DecidableEq

/-- Embedding of `RateLimiter.get_current_usage`: read the key's record with
`self.records.get(key)` (which, unlike the `defaultdict` access, inserts
nothing), count the timestamps newer than the cutoff, and report usage.  The
state is returned alongside to make the absence of mutation explicit:
the method only ever reads `self`. -/
def getCurrentUsage (cfg : RateLimitConfig) (st : RateLimiterState)
    (key : String) (now : ℚ) : RateLimitUsage × RateLimiterState :=
  match lookupRecord st key with
  | none =>
    (⟨0, cfg.maxRequests, cfg.timeWindow, cfg.maxRequests⟩, st)
  | some ts =>
    let valid := (ts.filter fun t => decide (now - (cfg.timeWindow : ℚ) < t)).length
    (⟨valid, cfg.maxRequests, cfg.timeWindow, cfg.maxRequests - valid⟩, st)

/-! ### Metrics counters (`utils/metrics.py`)

Counter values (Python floats) are modelled as rationals; `increment` only
adds.  The counter store is the `defaultdict(float)`, modelled as a total
function with default `0`. -/

/-- Insert a label pair into a list sorted lexicographically (Python's
`sorted(labels.items())`). -/
def insertPairSorted (x : String × String) :
    List (String × String) → List (String × String)
  | [] => [x]
  | y :: ys =>
    if x.1 < y.1 ∨ (x.1 = y.1 ∧ x.2 ≤ y.2) then x :: y :: ys
    else y :: insertPairSorted x ys

/-- Sort label pairs lexicographically. -/
def sortPairs (l : List (String × String)) : List (String × String) :=
  l.foldr insertPairSorted []

/-- Embedding of `MetricsCollector._make_key`: `metric` when there are no labels, otherwise
`metric{k1=v1,k2=v2}` with the labels sorted. -/
def makeKey (metric : String) (labels : Option (List (String × String))) :
    String :=
  match labels with
  | none => metric
  | some [] => metric
  | some l =>
    metric ++ "\x7b" ++
      String.intercalate "," ((sortPairs l).map fun kv => kv.1 ++ "=" ++ kv.2) ++
      "\x7d"

/-- The `MetricsCollector` state the counter claims are about: the
configuration flags and `self._counters`. -/
structure MetricsCollector where
  enabled : Bool
  collectQuery : Bool
  collectSql : Bool
  collectDb : Bool
  counters : String → ℚ

/-- Character-level prefix test (`str.startswith` in Python). -/
def startsWithChars : List Char → List Char → Bool
  | [], _ => true
  | _ :: _, [] => false
  | c :: cs, d :: ds => c == d && startsWithChars cs ds

/-- Embedding of `metric.startswith(pre)`. -/
def strStartsWith (s pre : String) : Bool :=
  startsWithChars pre.toList s.toList

/-- Embedding of `MetricsCollector._should_collect`. -/
def shouldCollect (c : MetricsCollector) (metric : String) : Bool :=
  if !c.enabled then false
  else if strStartsWith metric "mcp.query." && !c.collectQuery then false
  else if strStartsWith metric "mcp.sql." && !c.collectSql then false
  else if (strStartsWith metric "mcp.db." || strStartsWith metric "mcp.schema." ||
      strStartsWith metric "mcp.validation.") && !c.collectDb then false
  else true

/-- Embedding of `MetricsCollector.increment`: when the metric is collected, add `value`
(any float the caller passes) to the counter at `_make_key(metric, labels)`. -/
def increment (c : MetricsCollector) (metric : String) (value : ℚ)
    (labels : Option (List (String × String))) : MetricsCollector :=
  if !shouldCollect c metric then c
  else
    { c with
      counters := fun k =>
        if k = makeKey metric labels then c.counters k + value else c.counters k }

/-- A sequence of `increment` calls. -/
def runIncrements (c : MetricsCollector)
    (ops : List (String × ℚ × Option (List (String × String)))) :
    MetricsCollector :=
  ops.foldl (fun acc op => increment acc op.1 op.2.1 op.2.2) c

/-! ## Theorems -/

/-- Claim C1 — evaluation of the code at the failing input.  The claim says a
reference written `s.t` is checked under schema `s`; the code resolves the
schema from sqlglot's `catalog` part (`table_node.catalog or "public"`), which
is empty for the two-part reference `s.secret`, so the reference is checked
under `public` (as `public.secret` and bare `secret`), matches nothing, and
the statement passes validation — while the spec-intended resolution (schema
from the `db` part) blocks it and appends `s.secret`. -/
theorem c1_schema_qualifier_eval :
    blockedTablesPass ⟨"db", [], ["s.secret"]⟩ [⟨"", "s", "secret"⟩] = [] ∧
    specBlockedTablesPass ⟨"db", [], ["s.secret"]⟩ [⟨"", "s", "secret"⟩] =
      ["s.secret"] ∧
    (rewriteAndValidate (fun _ => "SELECT * FROM s.secret")
        ⟨"db", [], ["s.secret"]⟩
        (.ok ⟨[⟨"", "s", "secret"⟩], []⟩)).isValid = true := by
  refine ⟨rfl, rfl, rfl⟩

/-- Claim C2 — if `validate_sql` returns `ok = true` then the input parsed,
its root node is a `Select`, and no function node of the tree yields an
extracted name (the lower-cased bare identifier for anonymous nodes) that is a
member of the dangerous-function set. -/
theorem c2_validate_ok_safe (input : Except String ValidatorStmt)
    (h : (validateSql input).1 = true) :
    ∃ stmt, input = .ok stmt ∧ stmt.rootKind = "Select" ∧
      ∀ f ∈ stmt.funcs, ∀ n, extractFuncName f = some n →
        dangerousFunctionNames.contains n = false := by
  match input with
  | .error e => simp [validateSql] at h
  | .ok stmt =>
    refine ⟨stmt, rfl, ?_, ?_⟩
    · by_cases hr : stmt.rootKind = "Select"
      · exact hr
      · simp [validateSql, hr] at h
    · have hr : stmt.rootKind = "Select" := by
        by_cases hr : stmt.rootKind = "Select"
        · exact hr
        · simp [validateSql, hr] at h
      have hd : checkDangerousFunctions stmt.funcs = [] := by
        by_cases hd : checkDangerousFunctions stmt.funcs = []
        · exact hd
        · simp [validateSql, hr, hd] at h
      intro f hf n hn
      cases hcontain : dangerousFunctionNames.contains n with
      | false => rfl
      | true =>
        exfalso
        have hnone := List.filterMap_eq_nil_iff.mp hd f hf
        rw [hn] at hnone
        simp [hcontain] at hnone
        exact hnone (by simpa using hcontain)

/-- Claim C2 witness: a concrete accepted statement (a function-free
`SELECT`). -/
theorem c2_validate_ok_safe_witness :
    (validateSql (.ok ⟨"Select", [], []⟩)).1 = true ∧
    ∃ stmt,
      (.ok ⟨"Select", [], []⟩ : Except String ValidatorStmt) = .ok stmt ∧
      stmt.rootKind = "Select" ∧
      ∀ f ∈ stmt.funcs, ∀ n, extractFuncName f = some n →
        dangerousFunctionNames.contains n = false :=
  ⟨rfl, c2_validate_ok_safe _ rfl⟩

/-- Claim C3 — counterexample.  An input on which `sqlglot.parse_one` raises
(e.g. the unparsable string `")("`) takes the `except` branch: the result has
`ok = false` while both blocked lists are empty, so the claimed equivalence
`ok = false ⟺ blocked_tables ∪ blocked_columns ≠ ∅` fails at this input. -/
theorem c3_counterexample :
    (rewriteAndValidate (fun _ => "") ⟨"db", [], []⟩
        (.error "ParseError")).isValid = false ∧
    (rewriteAndValidate (fun _ => "") ⟨"db", [], []⟩
        (.error "ParseError")).blockedTables = [] ∧
    (rewriteAndValidate (fun _ => "") ⟨"db", [], []⟩
        (.error "ParseError")).blockedColumns = [] :=
  ⟨rfl, rfl, rfl⟩

/-- Claim C3 amended — on successfully parsed statements, `ok = false` holds
iff the union of the blocked outputs is non-empty; and unconditionally (parse
failures included) a run with a non-empty blocked output is a denial.  Parse
failures are denials with empty blocked lists, the one case the original
equivalence missed. -/
theorem c3_denial_iff_blocked (pretty : RewriterStmt → String)
    (p : DatabaseAccessPolicy) :
    (∀ stmt : RewriterStmt,
      (rewriteAndValidate pretty p (.ok stmt)).isValid = false ↔
        ((rewriteAndValidate pretty p (.ok stmt)).blockedTables ≠ [] ∨
          (rewriteAndValidate pretty p (.ok stmt)).blockedColumns ≠ [])) ∧
    (∀ input : Except String RewriterStmt,
      ((rewriteAndValidate pretty p input).blockedTables ≠ [] ∨
        (rewriteAndValidate pretty p input).blockedColumns ≠ []) →
      (rewriteAndValidate pretty p input).isValid = false) := by
  constructor
  · intro stmt
    by_cases hb : blockedTablesPass p stmt.tables ≠ [] ∨
        blockedColumnsPass p stmt.tables stmt.columns ≠ []
    · simp only [rewriteAndValidate, if_pos hb]
      simpa using hb
    · simp only [rewriteAndValidate, if_neg hb]
      simp
  · intro input h
    match input with
    | .error e => simp [rewriteAndValidate] at h
    | .ok stmt =>
      by_cases hb : blockedTablesPass p stmt.tables ≠ [] ∨
          blockedColumnsPass p stmt.tables stmt.columns ≠ []
      · simp [rewriteAndValidate, if_pos hb]
      · simp only [rewriteAndValidate, if_neg hb] at h
        simp at h

/-- Claim C3 witness: a concrete denial (blocked table `public.secret`) whose
non-empty blocked output forces `ok = false`. -/
theorem c3_denial_iff_blocked_witness :
    (rewriteAndValidate (fun _ => "") ⟨"db", [], ["secret"]⟩
        (.ok ⟨[⟨"", "", "secret"⟩], []⟩)).isValid = false :=
  (c3_denial_iff_blocked (fun _ => "") ⟨"db", [], ["secret"]⟩).2
    (.ok ⟨[⟨"", "", "secret"⟩], []⟩) (Or.inl (by decide))

/-- The breadth-first search of `_apply_row_filter` always settles on the
root: the root SELECT is the first node `find_all(exp.Select)` yields, and its
subtree contains every table reference of the statement. -/
theorem chosenPath_of_contains (t : SelectTree) (i : Nat)
    (h : containsId t i = true) : chosenPath t i = some [] := by
  unfold chosenPath
  cases t with
  | mk tbls subs w =>
    have hd : treeDepth (.mk tbls subs w) = forestDepth subs + 1 := rfl
    rw [hd]
    rw [bfsPaths]
    simp [List.find?, h]

/-- Claim C4 counterexample.  For the nested statement
`SELECT * FROM (SELECT id FROM orders) sub` (table reference `orders` carries
id 7 and sits in the inner SELECT), the code installs the row filter on the
WHERE of the *outer* SELECT — the first containing SELECT in breadth-first
`find_all` order — while the claim's innermost-SELECT placement leaves the
outer WHERE empty and rewrites the inner SELECT. -/
theorem c4_counterexample :
    (applyRowFilter
        (.mk [] (.cons (.mk [7] .nil none) .nil) none) 7
        (.pred "user_id = current_user_id()")).whereC =
      some (.pred "user_id = current_user_id()") ∧
    (specApplyInnermost
        (.mk [] (.cons (.mk [7] .nil none) .nil) none) 7
        (.pred "user_id = current_user_id()")).whereC = none ∧
    applyRowFilter
        (.mk [] (.cons (.mk [7] .nil none) .nil) none) 7
        (.pred "user_id = current_user_id()") ≠
      specApplyInnermost
        (.mk [] (.cons (.mk [7] .nil none) .nil) none) 7
        (.pred "user_id = current_user_id()") := by
  refine ⟨rfl, rfl, fun heq => ?_⟩
  have hproj := congrArg SelectTree.whereC heq
  rw [show (applyRowFilter
      (.mk [] (.cons (.mk [7] .nil none) .nil) none) 7
      (.pred "user_id = current_user_id()")).whereC =
        some (.pred "user_id = current_user_id()") from rfl] at hproj
  rw [show (specApplyInnermost
      (.mk [] (.cons (.mk [7] .nil none) .nil) none) 7
      (.pred "user_id = current_user_id()")).whereC = none from rfl] at hproj
  exact Option.noConfusion hproj

/-- Claim C4 amended — the rewriter AND-merges the filter into the WHERE
clause of the *first SELECT in breadth-first `find_all` order* that contains
the table reference, i.e. the outermost (top-level) SELECT, not the innermost;
when that SELECT has no WHERE the filter is installed as the WHERE.  For a
single-SELECT query this is the SELECT directly holding the reference, so the
`SELECT id FROM orders` example behaves as claimed: the result has the filter
as its WHERE node and `rewrite_and_validate` returns `ok = true`. -/
theorem c4_row_filter_outermost (t : SelectTree) (i : Nat) (c : Cond)
    (h : containsId t i = true) :
    applyRowFilter t i c = mergeWhereAt t [] c ∧
    applyRowFilter (.mk [1] .nil none) 1
        (.pred "user_id = current_user_id()") =
      .mk [1] .nil (some (.pred "user_id = current_user_id()")) ∧
    ∀ pretty,
      (rewriteAndValidate pretty
          ⟨"db", [⟨"public", "orders", none, none,
            some "user_id = current_user_id()"⟩], []⟩
          (.ok ⟨[⟨"", "", "orders"⟩], [⟨"", "id"⟩]⟩)).isValid = true := by
  refine ⟨?_, rfl, fun pretty => ?_⟩
  · unfold applyRowFilter
    rw [chosenPath_of_contains t i h]
  · have hbt : blockedTablesPass
        ⟨"db", [⟨"public", "orders", none, none,
          some "user_id = current_user_id()"⟩], []⟩
        [⟨"", "", "orders"⟩] = [] := rfl
    have hbc : blockedColumnsPass
        ⟨"db", [⟨"public", "orders", none, none,
          some "user_id = current_user_id()"⟩], []⟩
        [⟨"", "", "orders"⟩] [⟨"", "id"⟩] = [] := rfl
    simp [rewriteAndValidate, hbt, hbc]

/-- Claim C4 witness: the flat `orders` query contains reference 1, and the
filter lands on its (root) WHERE. -/
theorem c4_row_filter_outermost_witness :
    applyRowFilter (.mk [1] .nil none) 1
        (.pred "user_id = current_user_id()") =
      mergeWhereAt (.mk [1] .nil none) []
        (.pred "user_id = current_user_id()") :=
  (c4_row_filter_outermost (.mk [1] .nil none) 1
    (.pred "user_id = current_user_id()") rfl).1

/-- Filtering with a stronger predicate keeps no more elements. -/
theorem length_filter_of_imp {p q : α → Bool} (l : List α)
    (hpq : ∀ x, p x = true → q x = true) :
    (l.filter p).length ≤ (l.filter q).length :=
  (List.monotone_filter_right l hpq).length_le

/-- One probe never leaves more than `max_requests` timestamps in a record
that had at most `max_requests`: a denial only prunes, an admission appends to
a strictly smaller pruned record. -/
theorem checkRateLimit_length_le (cfg : RateLimitConfig) (rec : List ℚ)
    (now : ℚ) (h : rec.length ≤ cfg.maxRequests) :
    ((checkRateLimit cfg rec now).2).length ≤ cfg.maxRequests := by
  unfold checkRateLimit
  by_cases he : cfg.enabled
  · have hk : (pruneRecord cfg rec now).length ≤ rec.length :=
      List.length_filter_le _ _
    by_cases hge : cfg.maxRequests ≤ (pruneRecord cfg rec now).length
    · simp only [he, Bool.not_true, Bool.false_eq_true, if_false, if_pos hge]
      omega
    · simp only [he, Bool.not_true, Bool.false_eq_true, if_false, if_neg hge,
        List.length_append, List.length_cons, List.length_nil]
      omega
  · simp only [Bool.not_eq_true] at he
    simp [he, h]

/-- Record length bound over any probe sequence from an empty record. -/
theorem runProbes_length_le (cfg : RateLimitConfig) (probes : List ℚ)
    (rec : List ℚ) (h : rec.length ≤ cfg.maxRequests) :
    (runProbes cfg rec probes).length ≤ cfg.maxRequests := by
  induction probes generalizing rec with
  | nil => exact h
  | cons t rest ih =>
    exact ih _ (checkRateLimit_length_le cfg rec t h)

/-- Claim C5 counterexample.  With capacity `N = 1` and window `W = 10`, a
record holding the single admission timestamp `0` probed at `now = 10`: the
timestamp `0` lies within the claim's closed window `[now − W, now] = [0, 10]`
(one in-window timestamp, not `< N`), yet the code prunes with the strict
comparison `ts > now − W`, drops it, and allows the probe. -/
theorem c5_counterexample :
    (checkRateLimit ⟨1, 10, true⟩ [0] 10).1 = true ∧
    ¬ inWindowClosed [0] 10 10 < 1 := by
  have hkept : pruneRecord ⟨1, 10, true⟩ [0] 10 = [] := by
    simp [pruneRecord]
  constructor
  · simp [checkRateLimit, hkept]
  · have hcount : inWindowClosed [0] 10 10 = 1 := by
      simp [inWindowClosed]
    omega

/-- Claim C5 amended — with the half-open window `(now − W, now]` (the window
the strict pruning `ts > now − W` actually enforces): (1) after any probe
sequence on a key, starting from its initially empty record, at most `N`
timestamps of the record lie within the window at any instant; (2) whenever a
probe on an enabled limiter returns allowed, the record held strictly fewer
than `N` in-window timestamps immediately before. -/
theorem c5_sliding_window (cfg : RateLimitConfig) (h : cfg.enabled = true) :
    (∀ (probes : List ℚ) (now : ℚ),
      inWindowOpenLeft (runProbes cfg [] probes) cfg.timeWindow now ≤
        cfg.maxRequests) ∧
    (∀ (rec : List ℚ) (now : ℚ), (checkRateLimit cfg rec now).1 = true →
      inWindowOpenLeft rec cfg.timeWindow now < cfg.maxRequests) := by
  constructor
  · intro probes now
    have hlen : (runProbes cfg [] probes).length ≤ cfg.maxRequests :=
      runProbes_length_le cfg probes [] (by simp)
    calc inWindowOpenLeft (runProbes cfg [] probes) cfg.timeWindow now
        ≤ (runProbes cfg [] probes).length := List.length_filter_le _ _
      _ ≤ cfg.maxRequests := hlen
  · intro rec now hallow
    unfold checkRateLimit at hallow
    rw [h] at hallow
    simp only [Bool.not_true, Bool.false_eq_true, if_false] at hallow
    by_cases hge : cfg.maxRequests ≤ (pruneRecord cfg rec now).length
    · rw [if_pos hge] at hallow
      simp at hallow
    · have hlt : (pruneRecord cfg rec now).length < cfg.maxRequests := by
        omega
      have hmono : inWindowOpenLeft rec cfg.timeWindow now ≤
          (pruneRecord cfg rec now).length := by
        unfold inWindowOpenLeft pruneRecord
        exact length_filter_of_imp rec fun x hx => by
          have hx' := of_decide_eq_true hx
          exact decide_eq_true hx'.1
      omega

/-- Claim C5 witness: limiter `N = 2, W = 10`; a probe on the empty record at
`now = 0` is allowed, so the in-window count before it was `< 2`; and after
the probe sequence `[0, 0, 0]` at most two timestamps are in the window at
`now = 5`. -/
theorem c5_sliding_window_witness :
    inWindowOpenLeft ([] : List ℚ) 10 0 < 2 ∧
    inWindowOpenLeft (runProbes ⟨2, 10, true⟩ [] [0, 0, 0]) 10 5 ≤ 2 :=
  ⟨(c5_sliding_window ⟨2, 10, true⟩ rfl).2 [] 0 (by decide),
    (c5_sliding_window ⟨2, 10, true⟩ rfl).1 [0, 0, 0] 5⟩

/-- Claim C6 — on an initialized executor, a fetched result set of exactly
`max_rows` rows is returned in full, and one of `max_rows + 1` rows is
silently truncated to its first `max_rows` rows (a normal `.ok` response,
not an error). -/
theorem c6_max_rows_boundary {α : Type} (rows : List α) (n : Nat) :
    (rows.length = n → executeQueryRows true n rows = .ok rows) ∧
    (rows.length = n + 1 → executeQueryRows true n rows = .ok (rows.take n)) := by
  constructor
  · intro h
    simp [executeQueryRows, truncateRows, h]
  · intro h
    simp [executeQueryRows, truncateRows, h]

/-- Claim C6 witness: `max_rows = 2` with two and with three fetched rows. -/
theorem c6_max_rows_boundary_witness :
    executeQueryRows true 2 [10, 20] = Except.ok [10, 20] ∧
    executeQueryRows true 2 [10, 20, 30] = Except.ok [10, 20] :=
  ⟨(c6_max_rows_boundary [10, 20] 2).1 rfl,
    (c6_max_rows_boundary [10, 20, 30] 2).2 rfl⟩

/-- Claim C7 counterexample.  `increment` accepts any float, negative ones
included (`value: float = 1.0`, no guard): after `increment("requests", 1)`
followed by `increment("requests", -1)` the observed counter value drops from
`1` to `0`, so a later observation is smaller than an earlier one with no
`reset` in between. -/
theorem c7_counterexample :
    (increment (increment ⟨true, true, true, true, fun _ => 0⟩ "requests" 1 none)
        "requests" (-1) none).counters "requests" <
      (increment ⟨true, true, true, true, fun _ => 0⟩ "requests" 1 none).counters
        "requests" := by
  have hsc : ∀ q : ℚ, shouldCollect ⟨true, true, true, true, fun _ => q⟩
      "requests" = true := by
    intro q
    simp [shouldCollect, strStartsWith, startsWithChars]
  have h1 : (increment ⟨true, true, true, true, fun _ => 0⟩ "requests" 1
      none).counters "requests" = 1 := by
    simp [increment, hsc 0, makeKey]
  have h2 : (increment (increment ⟨true, true, true, true, fun _ => 0⟩
      "requests" 1 none) "requests" (-1) none).counters "requests" = 0 := by
    simp [increment, shouldCollect, strStartsWith, startsWithChars, makeKey]
  rw [h1, h2]
  norm_num

/-- Claim C7 amended — counters are monotone for the non-negative increments
the collector is actually given: after any sequence of `increment` calls whose
`value` arguments are all `≥ 0`, the counter observed at any key is at least
its earlier observed value.  (The interface itself accepts negative values and
then decreases the counter, which is what the counterexample exhibits.) -/
theorem c7_counter_monotone
    (ops : List (String × ℚ × Option (List (String × String))))
    (c : MetricsCollector) (key : String)
    (h : ∀ op ∈ ops, 0 ≤ op.2.1) :
    c.counters key ≤ (runIncrements c ops).counters key := by
  induction ops generalizing c with
  | nil => exact le_refl _
  | cons op rest ih =>
    have hstep : c.counters key ≤ (increment c op.1 op.2.1 op.2.2).counters key := by
      unfold increment
      by_cases hc : shouldCollect c op.1
      · simp only [hc, Bool.not_true, Bool.false_eq_true, if_false]
        by_cases hk : key = makeKey op.1 op.2.2
        · simp only [if_pos hk]
          have := h op (List.mem_cons_self op rest)
          linarith
        · simp only [if_neg hk]
          exact le_refl _
      · simp only [Bool.not_eq_true] at hc
        simp [hc]
    calc c.counters key ≤ (increment c op.1 op.2.1 op.2.2).counters key := hstep
      _ ≤ (runIncrements (increment c op.1 op.2.1 op.2.2) rest).counters key :=
        ih _ (fun o ho => h o (List.mem_cons_of_mem _ ho))
      _ = (runIncrements c (op :: rest)).counters key := rfl

/-- Claim C7 witness: one increment of `1` on an enabled collector never
shrinks the `requests` counter. -/
theorem c7_counter_monotone_witness :
    (⟨true, true, true, true, fun _ => 0⟩ : MetricsCollector).counters
        "requests" ≤
      (runIncrements ⟨true, true, true, true, fun _ => 0⟩
          [("requests", 1, none)]).counters "requests" :=
  c7_counter_monotone [("requests", 1, none)]
    ⟨true, true, true, true, fun _ => 0⟩ "requests"
    (by
      intro op hop
      rw [List.mem_singleton] at hop
      subst hop
      norm_num)

/-- Claim C9 — `format_sql` falls back to the identity: when parsing fails, or
parsing succeeds and pretty-printing fails, the input string is returned
unchanged (and `formatSql` is a total function — the embedding of "never
raises"). -/
theorem c9_format_sql_fallback {α : Type} (parse : String → Except String α)
    (gen : α → Except String String) (sql : String)
    (h : (∃ e, parse sql = .error e) ∨
      (∃ a e, parse sql = .ok a ∧ gen a = .error e)) :
    formatSql parse gen sql = sql := by
  rcases h with ⟨e, he⟩ | ⟨a, e, ha, hg⟩
  · unfold formatSql
    rw [he]
  · have h2 : formatSql parse gen sql =
        match gen a with
        | .error _ => sql
        | .ok out => out := by
      unfold formatSql
      rw [ha]
    rw [h2, hg]

/-- Claim C9 witness: a parser that rejects `")("` makes `format_sql` return
`")("` unchanged. -/
theorem c9_format_sql_fallback_witness :
    formatSql (fun _ => (.error "ParseError" : Except String Unit))
      (fun _ => .ok "SELECT 1") ")(" = ")(" :=
  c9_format_sql_fallback _ _ _ (Or.inl ⟨"ParseError", rfl⟩)

/-- Claim C10 — `get_current_usage` is read-only: it returns the limiter state
unchanged, and interleaving any number of `get_current_usage` calls (any keys,
any instants) before a `check_rate_limit` probe leaves that probe's outcome
and resulting state identical. -/
theorem c10_usage_read_only (cfg : RateLimitConfig) (st : RateLimiterState)
    (key : String) (now : ℚ) :
    (getCurrentUsage cfg st key now).2 = st ∧
    ∀ (calls : List (String × ℚ)) (k : String) (t : ℚ),
      checkRateLimitS cfg
          (calls.foldl (fun s c => (getCurrentUsage cfg s c.1 c.2).2) st) k t =
        checkRateLimitS cfg st k t := by
  have hro : ∀ (s : RateLimiterState) (k : String) (t : ℚ),
      (getCurrentUsage cfg s k t).2 = s := by
    intro s k t
    unfold getCurrentUsage
    split <;> rfl
  refine ⟨hro st key now, ?_⟩
  intro calls k t
  have hfold : ∀ s : RateLimiterState,
      calls.foldl (fun s c => (getCurrentUsage cfg s c.1 c.2).2) s = s := by
    induction calls with
    | nil => intro s; rfl
    | cons cll rest ih =>
      intro s
      rw [List.foldl_cons, hro]
      exact ih s
  rw [hfold st]

/-- Idempotence of `format_sql` reduces to a round-trip property of the
third-party sqlglot parser/pretty-printer pair: whenever the generator's
output reparses to a statement that pretty-prints to the same string, a second
`format_sql` application is the identity on the first one's result.  The
round-trip premise is about sqlglot, not about code of this repository, and is
therefore not settled here. -/
theorem formatSql_fixed_point_of_stable {α : Type}
    (parse : String → Except String α) (gen : α → Except String String)
    (hstab : ∀ a out, gen a = .ok out →
      ∃ b, parse out = .ok b ∧ gen b = .ok out) (s : String) :
    formatSql parse gen (formatSql parse gen s) = formatSql parse gen s := by
  cases hp : parse s with
  | error e =>
    have hr : formatSql parse gen s = s := by unfold formatSql; rw [hp]
    rw [hr]
    exact hr
  | ok a =>
    have h2 : formatSql parse gen s =
        match gen a with
        | .error _ => s
        | .ok out => out := by
      unfold formatSql
      rw [hp]
    cases hg : gen a with
    | error e =>
      have hr : formatSql parse gen s = s := by rw [h2, hg]
      rw [hr]
      exact hr
    | ok out =>
      have hr : formatSql parse gen s = out := by rw [h2, hg]
      rw [hr]
      obtain ⟨b, hpb, hgb⟩ := hstab a out hg
      have h3 : formatSql parse gen out =
          match gen b with
          | .error _ => out
          | .ok o => o := by
        unfold formatSql
        rw [hpb]
      rw [h3, hgb]

end PgMcp
